import Mathlib

/-!
Verification development for the Forum repository's object-loading path.

The repository contains two implementations of the load-objects pipeline:

* `forumapp/views.py` — the endpoint actually wired in `urls.py`
  (`path('load-objects/', views.load_objects)`), with its own module-level
  allow-lists and an inline filter/annotate/paginate/serialize body;
* `forumapp/helpers.py` — a refactored module with wider allow-lists and
  split-out validators (`validate_model`, `validate_page_and_per_page`,
  `validate_related_counts`, `fetch_objects`, ...) that no view imports.

Both are embedded below, in namespaces `Views` and `Helpers`, over a shared
data model. Stateful web machinery is embedded as explicit state passing
(`Store` in, `Store` out); fallible code returns `Option`/`Except`; the
paginator follows Django's documented `Paginator`/`Page` semantics.
-/

/-- A JSON-serializable field value: strings, integers (datetimes are carried
as integer timestamps), or `null` (Python `None`). -/
inductive Value where
  | vStr : String → Value
  | vInt : Int → Value
  | vNone : Value
deriving DecidableEq, Repr

/-- A Python dict with string keys, as an insertion-ordered association list
(keys unique by construction, as in CPython dicts). -/
abbrev Dict := List (String × Value)

/-- Python `d[k]` lookup (first binding; our dicts keep keys unique). -/
def dictGet {α : Type} (d : List (String × α)) (k : String) : Option α :=
  match d with
  | [] => none
  | (k', v) :: rest => if k' = k then some v else dictGet rest k

/-- Python `d[k] = v`: overwrite in place if the key exists, else append. -/
def dictSet {α : Type} (d : List (String × α)) (k : String) (v : α) :
    List (String × α) :=
  match d with
  | [] => [(k, v)]
  | (k', v') :: rest =>
      if k' = k then (k, v) :: rest else (k', v') :: dictSet rest k v

/-- Python `del d[k]` for a present key (removes the first binding). -/
def dictDel {α : Type} (d : List (String × α)) (k : String) :
    List (String × α) :=
  match d with
  | [] => []
  | (k', v') :: rest => if k' = k then rest else (k', v') :: dictDel rest k

/-- Python `{**a, **b}` merge: bindings of `b` override those of `a`. -/
def dictMerge {α : Type} (a b : List (String × α)) : List (String × α) :=
  b.foldl (fun acc kv => dictSet acc kv.1 kv.2) a

/-- A Django `QueryDict`: the raw multi-valued key/value pairs of a request
body or query string. -/
abbrev QDict := List (String × String)

/-- `QueryDict.get`: the last value submitted under the key, if any. -/
def qdGet (q : QDict) (k : String) : Option String :=
  ((q.filter (fun p => p.1 = k)).map (fun p => p.2)).getLast?

/-- `QueryDict.get(k, default)`. -/
def qdGetD (q : QDict) (k : String) (d : String) : String :=
  (qdGet q k).getD d

/-- `QueryDict.getlist(k, [])`: all values submitted under the key. -/
def qdGetList (q : QDict) (k : String) : List String :=
  (q.filter (fun p => p.1 = k)).map (fun p => p.2)

/-- Keys of a `QueryDict` in order of first appearance. -/
def qdKeys (q : QDict) : List String :=
  q.foldl (fun acc p => if acc.contains p.1 then acc else acc ++ [p.1]) []

/-- `QueryDict.items()`: one `(key, last value)` pair per distinct key. -/
def qdItems (q : QDict) : List (String × String) :=
  (qdKeys q).filterMap (fun k => (qdGet q k).map (fun v => (k, v)))

/-- Python's whitespace set for `str.strip()`. -/
def isPySpace (c : Char) : Bool :=
  c = ' ' || c = '\t' || c = '\n' || c = '\r' || c = '\x0b' || c = '\x0c'

/-- Python `s.strip()` on the character list. -/
def pyStrip (l : List Char) : List Char :=
  ((l.dropWhile isPySpace).reverse.dropWhile isPySpace).reverse

/-- `s.startswith(p)` (structural, so that concrete requests evaluate). -/
def strStartsWith (s p : String) : Bool :=
  p.data.isPrefixOf s.data

/-- The split loop of `str.split(sep)` for a nonempty separator, with fuel
for structural termination (fuel `length + 1` always suffices: every step
consumes at least one character). -/
def splitOnSepAux (sep : List Char) : Nat → List Char → List Char →
    List (List Char)
  | 0, l, acc => [acc.reverse ++ l]
  | _ + 1, [], acc => [acc.reverse]
  | fuel + 1, c :: rest, acc =>
      if sep.isPrefixOf (c :: rest) && !sep.isEmpty then
        acc.reverse :: splitOnSepAux sep fuel ((c :: rest).drop sep.length) []
      else splitOnSepAux sep fuel rest (c :: acc)

/-- Python `s.split(sep)` / Lean `String.splitOn` for a nonempty separator:
split at each leftmost non-overlapping occurrence. -/
def strSplitOn (s sep : String) : List String :=
  (splitOnSepAux sep.data (s.data.length + 1) s.data []).map String.mk

/-- True when a run of underscores or a misplaced underscore would make
Python `int()` reject the digit string. -/
def hasDoubleUnderscore : List Char → Bool
  | '_' :: '_' :: _ => true
  | _ :: rest => hasDoubleUnderscore rest
  | [] => false

/-- Digit-group check of Python `int()`: nonempty, digits with optional
single underscores strictly between digits. -/
def pyDigitsOk (l : List Char) : Bool :=
  !l.isEmpty &&
  l.all (fun c => c.isDigit || c = '_') &&
  (match l.head? with | some c => c.isDigit | none => false) &&
  (match l.getLast? with | some c => c.isDigit | none => false) &&
  !hasDoubleUnderscore l

/-- Numeric value of a digit string once underscores are removed. -/
def digitsVal (l : List Char) : Int :=
  l.foldl (fun a c => if c = '_' then a else a * 10 + (Int.ofNat (c.toNat - '0'.toNat))) 0

/-- Python `int(s)` on a string: strip surrounding whitespace, optional sign,
then digits (underscore separators allowed between digits); `none` models the
`ValueError` raised on anything else. -/
def parsePyInt (s : String) : Option Int :=
  let core := pyStrip s.data
  match core with
  | [] => none
  | c :: rest =>
      let signed : Int × List Char :=
        if c = '-' then (-1, rest) else if c = '+' then (1, rest) else (1, core)
      if pyDigitsOk signed.2 then some (signed.1 * digitsVal signed.2) else none

/-- Python list slicing `l[b:t]` with negative-index normalization. -/
def pySlice {α : Type} (l : List α) (b t : Int) : List α :=
  let n : Int := Int.ofNat l.length
  let b' : Nat := (if b < 0 then max 0 (n + b) else min b n).toNat
  let t' : Nat := (if t < 0 then max 0 (n + t) else min t n).toNat
  (l.take t').drop b'

/-! ## Entity store (`forumapp/models.py` plus the auth `User` collaborator) -/

/-- The authentication collaborator's user record (the fields this app reads). -/
structure User where
  id : Nat
  username : String
  email : String
  password : String
deriving DecidableEq, Repr

/-- `models.Category`: name (unique), description, slug. -/
structure Category where
  id : Nat
  name : String
  description : String
  slug : String
deriving DecidableEq, Repr

/-- `models.Topic`: title, slug, content, timestamps, category and author
foreign keys. Datetimes are integer timestamps. -/
structure Topic where
  id : Nat
  title : String
  slug : String
  content : String
  created_at : Int
  updated_at : Int
  category_id : Nat
  author_id : Nat
deriving DecidableEq, Repr

/-- `models.Reply`: topic and author foreign keys, content, timestamps,
optional parent reply (threading), slug. -/
structure Reply where
  id : Nat
  topic_id : Nat
  author_id : Nat
  content : String
  created_at : Int
  updated_at : Int
  parent_id : Option Nat
  slug : String
deriving DecidableEq, Repr

/-- The persisted database state. -/
structure Store where
  users : List User
  categories : List Category
  topics : List Topic
  replies : List Reply
deriving DecidableEq, Repr

/-- A row of one of the three loadable models. -/
inductive Row where
  | cat : Category → Row
  | top : Topic → Row
  | rep : Reply → Row
deriving DecidableEq, Repr

/-! ## Slug derivation (`models.py` save methods) -/

/-- Collapse each maximal run of spaces and hyphens into a single hyphen
(the `re.sub(r'[-\s]+', '-', ...)` step of `django.utils.text.slugify`). -/
def collapseSeparators (l : List Char) : List Char :=
  (l.foldl
    (fun (acc : List Char × Bool) c =>
      if c = ' ' || c = '-' then
        if acc.2 then acc else (acc.1 ++ ['-'], true)
      else (acc.1 ++ [c], false))
    ([], false)).1

/-- Strip leading and trailing hyphens and underscores
(the `.strip('-_')` step of `slugify`). -/
def stripSepEnds (l : List Char) : List Char :=
  let isSep : Char → Bool := fun c => c = '-' || c = '_'
  ((l.dropWhile isSep).reverse.dropWhile isSep).reverse

/-- `django.utils.text.slugify` on ASCII input: lowercase, drop characters
that are not alphanumeric, underscore, space, or hyphen, collapse separator
runs to single hyphens, strip separator ends. -/
def slugify (s : String) : String :=
  let lowered := (s.toList.map Char.toLower).filter
    (fun c => c.isAlphanum || c = '_' || c = ' ' || c = '-')
  String.mk (stripSepEnds (collapseSeparators lowered))

/-- `Category.save`: derive the slug from the name only when the slug is
empty, then persist (persistence modelled by returning the saved instance). -/
def Category.save (c : Category) : Category :=
  if c.slug = "" then { c with slug := slugify c.name } else c

/-- `Topic.save`: derive the slug from the title only when the slug is empty. -/
def Topic.save (t : Topic) : Topic :=
  if t.slug = "" then { t with slug := slugify t.title } else t

/-- `Reply.save`: when the slug is empty, set `created_at` to the current
time (passed explicitly as `now`) and derive the slug from
`"{topic.id}-{author.id}-{timestamp}"`. -/
def Reply.save (r : Reply) (now : Int) : Reply :=
  if r.slug = "" then
    { r with created_at := now,
             slug := slugify (toString r.topic_id ++ "-" ++ toString r.author_id
                              ++ "-" ++ toString now) }
  else r

/-! ## Field schema and field-path resolution (the ORM collaborator)

Django resolves string field paths like `topic__slug` against the model's
schema; an unknown path raises `FieldError` at queryset-construction time.
We model direct fields and single-join paths `rel__field`, the only shapes
the allow-listed parameters can produce. -/

/-- Column type, used for filter-value coercion. -/
inductive FType where
  | intT : FType
  | strT : FType
deriving DecidableEq, Repr

/-- Direct (single-segment) field names of each model, with their types.
Foreign keys resolve to the referenced primary key under both `rel` and
`rel_id` names, as in the ORM. -/
def fieldsOf : String → List (String × FType)
  | "User" => [("id", .intT), ("username", .strT), ("email", .strT),
               ("password", .strT)]
  | "Category" => [("id", .intT), ("name", .strT), ("description", .strT),
                   ("slug", .strT)]
  | "Topic" => [("id", .intT), ("title", .strT), ("slug", .strT),
                ("content", .strT), ("created_at", .intT), ("updated_at", .intT),
                ("category", .intT), ("category_id", .intT),
                ("author", .intT), ("author_id", .intT)]
  | "Reply" => [("id", .intT), ("topic", .intT), ("topic_id", .intT),
                ("author", .intT), ("author_id", .intT), ("content", .strT),
                ("created_at", .intT), ("updated_at", .intT),
                ("parent", .intT), ("parent_id", .intT), ("slug", .strT)]
  | _ => []

/-- Forward relations of each model and the model they point to. -/
def relTarget : String → String → Option String
  | "Topic", "category" => some "Category"
  | "Topic", "author" => some "User"
  | "Reply", "topic" => some "Topic"
  | "Reply", "author" => some "User"
  | "Reply", "parent" => some "Reply"
  | _, _ => none

/-- Type of a field path (`field` or `rel__field`) on a model, `none` when
the ORM would raise `FieldError`. -/
def pathFieldType (m : String) (path : String) : Option FType :=
  match strSplitOn path "__" with
  | [f] => dictGet (fieldsOf m) f
  | [rel, f] => (relTarget m rel).bind (fun tm => dictGet (fieldsOf tm) f)
  | _ => none

/-- Whether a field path resolves on the model. -/
def fieldPathValid (m : String) (path : String) : Bool :=
  (pathFieldType m path).isSome

def catAttr (c : Category) (f : String) : Value :=
  if f = "id" then .vInt (Int.ofNat c.id)
  else if f = "name" then .vStr c.name
  else if f = "description" then .vStr c.description
  else if f = "slug" then .vStr c.slug
  else .vNone

def userAttr (u : User) (f : String) : Value :=
  if f = "id" then .vInt (Int.ofNat u.id)
  else if f = "username" then .vStr u.username
  else if f = "email" then .vStr u.email
  else if f = "password" then .vStr u.password
  else .vNone

def topAttr (t : Topic) (f : String) : Value :=
  if f = "id" then .vInt (Int.ofNat t.id)
  else if f = "title" then .vStr t.title
  else if f = "slug" then .vStr t.slug
  else if f = "content" then .vStr t.content
  else if f = "created_at" then .vInt t.created_at
  else if f = "updated_at" then .vInt t.updated_at
  else if f = "category" || f = "category_id" then .vInt (Int.ofNat t.category_id)
  else if f = "author" || f = "author_id" then .vInt (Int.ofNat t.author_id)
  else .vNone

def repAttr (r : Reply) (f : String) : Value :=
  if f = "id" then .vInt (Int.ofNat r.id)
  else if f = "topic" || f = "topic_id" then .vInt (Int.ofNat r.topic_id)
  else if f = "author" || f = "author_id" then .vInt (Int.ofNat r.author_id)
  else if f = "content" then .vStr r.content
  else if f = "created_at" then .vInt r.created_at
  else if f = "updated_at" then .vInt r.updated_at
  else if f = "parent" || f = "parent_id" then
    (match r.parent_id with | none => .vNone | some p => .vInt (Int.ofNat p))
  else if f = "slug" then .vStr r.slug
  else .vNone

/-- Direct field value of a row. -/
def directAttr (r : Row) (f : String) : Value :=
  match r with
  | .cat c => catAttr c f
  | .top t => topAttr t f
  | .rep p => repAttr p f

/-- Value of `rel__f` on a row: follow the foreign key into the store and
read the target's field; `NULL` (dangling or null reference) is `vNone`. -/
def joinAttr (store : Store) (r : Row) (rel f : String) : Value :=
  match r, rel with
  | .top t, "category" =>
      ((store.categories.find? (fun c => c.id == t.category_id)).map
        (fun c => catAttr c f)).getD .vNone
  | .top t, "author" =>
      ((store.users.find? (fun u => u.id == t.author_id)).map
        (fun u => userAttr u f)).getD .vNone
  | .rep p, "topic" =>
      ((store.topics.find? (fun t => t.id == p.topic_id)).map
        (fun t => topAttr t f)).getD .vNone
  | .rep p, "author" =>
      ((store.users.find? (fun u => u.id == p.author_id)).map
        (fun u => userAttr u f)).getD .vNone
  | .rep p, "parent" =>
      (match p.parent_id with
       | none => .vNone
       | some pid =>
         ((store.replies.find? (fun q => q.id == pid)).map
           (fun q => repAttr q f)).getD .vNone)
  | _, _ => .vNone

/-- Evaluate a field path on a row (only called on paths that passed
`fieldPathValid`). -/
def evalFieldPath (store : Store) (r : Row) (path : String) : Value :=
  match strSplitOn path "__" with
  | [f] => directAttr r f
  | [rel, f] => joinAttr store r rel f
  | _ => .vNone

/-! ## Serialization (`safe_model_to_dict`, the per-object loop body)

`safe_model_to_dict`, `format_date_field`, `add_annotated_fields_to_obj_attrs`
and `get_format_function` appear verbatim in both `views.py` and `helpers.py`;
they are embedded once here. -/

/-- `django.forms.models.model_to_dict`: the editable fields of an instance
as a name → value dict. The non-editable `AutoField` primary key and
`auto_now`/`auto_now_add` datetime fields are omitted, so: Category yields
name, description, slug; Topic yields title, slug, content, category, author;
Reply yields topic, author, content, created_at (a plain `DateTimeField`),
parent, slug. Foreign keys serialize to the referenced primary key. -/
def model_to_dict : Row → Dict
  | .cat c => [("name", .vStr c.name), ("description", .vStr c.description),
               ("slug", .vStr c.slug)]
  | .top t => [("title", .vStr t.title), ("slug", .vStr t.slug),
               ("content", .vStr t.content),
               ("category", .vInt (Int.ofNat t.category_id)),
               ("author", .vInt (Int.ofNat t.author_id))]
  | .rep r => [("topic", .vInt (Int.ofNat r.topic_id)),
               ("author", .vInt (Int.ofNat r.author_id)),
               ("content", .vStr r.content),
               ("created_at", .vInt r.created_at),
               ("parent", match r.parent_id with
                          | none => .vNone
                          | some p => .vInt (Int.ofNat p)),
               ("slug", .vStr r.slug)]

/-- `safe_model_to_dict(instance, exclude_fields)`: convert to a dict, then
delete each excluded field that is present. -/
def safe_model_to_dict (inst : Row) (exclude_fields : List String) : Dict :=
  exclude_fields.foldl (fun data field => dictDel data field)
    (model_to_dict inst)

/-- Modelled from the framework collaborator:
`django.utils.formats.date_format(value, format='DATETIME_FORMAT',
use_l10n=True)` renders a datetime in the active locale; modelled as an
injective rendering of the timestamp, since no behavior here depends on the
exact text. -/
def date_format (t : Int) : String := "datetime " ++ toString t

/-- The `created_at` attribute of a row; `none` models the `AttributeError`
raised for Category, which defines no such field. -/
def createdAtAttr : Row → Option Int
  | .cat _ => none
  | .top t => some t.created_at
  | .rep r => some r.created_at

/-- `add_annotated_fields_to_obj_attrs`: for each annotation key (in dict
order), set `obj_dict[key] = getattr(obj, key)`; the per-row annotated values
are supplied as `annPairs`. -/
def add_annotated_fields_to_obj_attrs (obj_dict : Dict)
    (annPairs : List (String × Value)) : Dict :=
  annPairs.foldl (fun d kv => dictSet d kv.1 kv.2) obj_dict

/-- `get_format_function`: look up `GET['format_function']` in the fixed
table `{'datetime_format': format_date_field}` and collect
`GET.getlist('format_args[]')`. The boolean records whether a function was
found (the table has a single entry). -/
def get_format_function (GETparams : QDict) : Bool × List String :=
  let format_function_name := qdGet GETparams "format_function"
  let format_args := qdGetList GETparams "format_args[]"
  (format_function_name == some "datetime_format", format_args)

/-- One iteration of the serialization loop shared by `views.load_objects`
and `helpers.serialize_objects`: build the safe dict, add annotated fields
when requested, then apply the format function when present.
`format_date_field(obj_dict, obj, *format_args)` needs exactly one positional
argument and reads `obj.created_at`; a wrong arity (`TypeError`) or a missing
attribute (`AttributeError`) is an uncaught exception, modelled as `none`. -/
def serializeOne (row : Row) (annPairs : List (String × Value))
    (addAnns : Bool) (fmt : Bool) (format_args : List String) : Option Dict :=
  let obj_dict := safe_model_to_dict row ["author_email", "password"]
  let obj_dict :=
    if addAnns then add_annotated_fields_to_obj_attrs obj_dict annPairs
    else obj_dict
  if fmt then
    match format_args, createdAtAttr row with
    | [fieldName], some t =>
        some (dictSet obj_dict fieldName (.vStr (date_format t)))
    | _, _ => none
  else some obj_dict

/-- The serialization loop over a page of (row, annotated values) pairs;
`none` when any iteration raises. -/
def serializePage (pairs : List (Row × List (String × Value)))
    (addAnns : Bool) (fmt : Bool) (format_args : List String) :
    Option (List Dict) :=
  match pairs with
  | [] => some []
  | p :: rest =>
      match serializeOne p.1 p.2 addAnns fmt format_args,
            serializePage rest addAnns fmt format_args with
      | some d, some ds => some (d :: ds)
      | _, _ => none

/-! ## Paginator (framework collaborator, Django `Paginator`/`Page`) -/

/-- `Paginator.num_pages` with `orphans = 0` and `allow_empty_first_page`:
`ceil(max(1, count) / per_page)`; `none` models the `ZeroDivisionError`
when `per_page = 0`. -/
def num_pages (count per_page : Int) : Option Int :=
  if per_page = 0 then none
  else
    let hits := max 1 count
    some (Int.fdiv hits per_page + (if Int.fmod hits per_page = 0 then 0 else 1))

/-- The page number `Paginator.get_page` settles on: `validate_number`
raises `EmptyPage` for numbers below 1 or beyond `num_pages` (except page 1
of an empty paginator), and `get_page` answers `EmptyPage` with the last
page. -/
def get_page_number (np page : Int) : Int :=
  if page < 1 then np
  else if page > np then (if page = 1 then page else np)
  else page

/-- The object slice of a `Page`: `object_list[bottom:top]` with
`bottom = (number-1)*per_page` and `top` clamped to `count`. -/
def page_slice {α : Type} (l : List α) (per_page number : Int) : List α :=
  let count : Int := Int.ofNat l.length
  let bottom := (number - 1) * per_page
  let top0 := bottom + per_page
  let top := if top0 ≥ count then count else top0
  pySlice l bottom top

/-- An annotation expression: `F(field)` (a field reference) or
`Count(field)` (a related-record count). -/
inductive AnnExpr where
  | F : String → AnnExpr
  | Count : String → AnnExpr
deriving DecidableEq, Repr

/-- Whether `Count(f)` resolves on model `m`: `replies` is the one modelled
reverse relation (`Topic` → its replies, via `related_name='replies'`);
every other allow-listed count target raises `FieldError`. -/
def countRelValid (m f : String) : Bool :=
  m = "Topic" && f = "replies"

/-- The value of `Count(f)` on a row (only called after `countRelValid`). -/
def countRelVal (store : Store) (r : Row) (f : String) : Value :=
  match r, f with
  | .top t, "replies" =>
      .vInt (Int.ofNat ((store.replies.filter (fun p => p.topic_id == t.id)).length))
  | _, _ => .vNone

/-- Whether an annotation expression resolves on model `m` (Django resolves
`annotate` expressions eagerly and raises `FieldError` otherwise). -/
def annExprValid (m : String) : AnnExpr → Bool
  | .F f => fieldPathValid m f
  | .Count f => countRelValid m f

/-- Per-row value of an annotation expression. -/
def evalAnnExpr (store : Store) (r : Row) : AnnExpr → Value
  | .F f => evalFieldPath store r f
  | .Count f => countRelVal store r f

/-- `Model.objects` for a loadable model name: all rows in store order. -/
def allRows (store : Store) (m : String) : List Row :=
  match m with
  | "Category" => store.categories.map Row.cat
  | "Topic" => store.topics.map Row.top
  | "Reply" => store.replies.map Row.rep
  | _ => []

/-- Exact-match filter of one whitelisted parameter against a row: string
columns compare textually, integer columns after Python `int` coercion of
the submitted value (coercion failures are rejected eagerly, before rows are
examined). -/
def filterMatch (store : Store) (r : Row) (k v : String) : Bool :=
  match evalFieldPath store r k with
  | .vStr s => s == v
  | .vInt n => parsePyInt v == some n
  | .vNone => false

/-- Eager validation of one filter parameter: the path must resolve on the
model and an integer column's value must parse as an integer. -/
def filterParamOk (m : String) (kv : String × String) : Bool :=
  match pathFieldType m kv.1 with
  | some .intT => (parsePyInt kv.2).isSome
  | some .strT => true
  | none => false

/-- The JSON responses the endpoint can produce: a 200 payload with
`objects` and `has_next`, a 400 `JsonResponse` with an error message, or an
uncaught exception surfacing as the framework's HTTP 500. -/
inductive Response where
  | ok : List Dict → Bool → Response
  | clientError : String → Response
  | serverError : Response
deriving DecidableEq, Repr

/-- The request data the load-objects path reads: POST body, query string,
and the session's authentication state. -/
structure HttpRequest where
  POST : QDict
  GET : QDict
  user_is_authenticated : Bool
deriving DecidableEq, Repr

/-! ## The wired endpoint (`forumapp/views.py`) -/

namespace Views

/-- `views.ALLOWED_MODELS` (line 21). -/
def ALLOWED_MODELS : List String := ["Reply", "Category"]

/-- `views.ALLOWED_FILTER_PARAMS` (line 22). -/
def ALLOWED_FILTER_PARAMS : List String := ["topic__slug"]

/-- `views.ALLOWED_ANNOTATIONS` (line 23). -/
def ALLOWED_ANNOTATIONS : List String := ["author_name", "replies_count"]

/-- `views.validate_filter_params`: keep only allow-listed keys. -/
def validate_filter_params (params : List (String × String)) :
    List (String × String) :=
  params.filter (fun p => ALLOWED_FILTER_PARAMS.contains p.1)

/-- One iteration of the `views.validate_annotations` loop: only
`annotate_`-prefixed keys are considered; the key is normalized by dropping
the marker and kept when the normalized name is allow-listed, bound to
`F(value)`. -/
def validate_annotations_step (acc : List (String × AnnExpr))
    (kv : String × String) : List (String × AnnExpr) :=
  if strStartsWith kv.1 "annotate_" then
    (if ALLOWED_ANNOTATIONS.contains (kv.1.drop 9) then
      dictSet acc (kv.1.drop 9) (AnnExpr.F kv.2)
    else acc)
  else acc

/-- `views.validate_annotations`: the loop over the request items. -/
def validate_annotations (params : List (String × String)) :
    List (String × AnnExpr) :=
  params.foldl validate_annotations_step []

/-- The `try` block of `views.load_objects` (lines 153-162):
`model.objects.filter(**filter_params)`, then `annotate(**annotations)` when
present, then the anonymous-Category exclusion of the `MyTopics` slug.
Filter parameters and annotation expressions are resolved eagerly against
the model; a `FieldError`/`ValueError` there is caught and becomes the 400
`Error filtering objects` response (the interpolated exception text is not
modelled). The result pairs each surviving row with its annotated values. -/
def buildQuery (store : Store) (mname : String)
    (filter_params : List (String × String)) (anns : List (String × AnnExpr))
    (isAuth : Bool) : Except String (List (Row × List (String × Value))) :=
  if filter_params.any (fun kv => !(filterParamOk mname kv)) then
    .error "Error filtering objects"
  else if anns.any (fun kv => !(annExprValid mname kv.2)) then
    .error "Error filtering objects"
  else
    let rows := filter_params.foldl
      (fun rs kv => rs.filter (fun r => filterMatch store r kv.1 kv.2))
      (allRows store mname)
    let rows := rows.map
      (fun r => (r, anns.map (fun kv => (kv.1, evalAnnExpr store r kv.2))))
    let rows :=
      if mname == "Category" && !isAuth then
        rows.filter (fun rp => !(directAttr rp.1 "slug" == .vStr "MyTopics"))
      else rows
    .ok rows

/-- Pagination and serialization tail of `views.load_objects` (lines
164-183): `Paginator(objects, per_page).get_page(page)`, the serialization
loop, and the `{objects, has_next}` payload. A `ZeroDivisionError` in the
paginator or an exception in the loop is uncaught (500). -/
def paginateAndSerialize (rows : List (Row × List (String × Value)))
    (page per_page : Int) (addAnns : Bool) (fmt : Bool × List String) :
    Response :=
  match num_pages (Int.ofNat rows.length) per_page with
  | none => .serverError
  | some np =>
      match serializePage (page_slice rows per_page (get_page_number np page))
            addAnns fmt.1 fmt.2 with
      | none => .serverError
      | some ds => .ok ds (get_page_number np page < np)

/-- The local `filter_params` of `views.load_objects` (lines 148-149): POST
items minus page/per_page/model, then the allow-list filter. -/
def requestFilterParams (request : HttpRequest) : List (String × String) :=
  validate_filter_params
    ((qdItems request.POST).filter
      (fun kv => !(["page", "per_page", "model"].contains kv.1)))

/-- The local `annotations` of `views.load_objects` (line 151). -/
def requestAnns (request : HttpRequest) : List (String × AnnExpr) :=
  validate_annotations (qdItems request.GET)

/-- `views.load_objects` after the integer parameters parsed: model-name
allow-list check (`not model_name or model_name not in ALLOWED_MODELS`),
filter-parameter collection and validation, annotation validation over the
query string, then query, pagination and serialization. -/
def load_objects_checked (store : Store) (request : HttpRequest)
    (page per_page : Int) : Response :=
  match qdGet request.POST "model" with
  | none => .clientError "Invalid or disallowed model"
  | some mname =>
      if mname.isEmpty || !(ALLOWED_MODELS.contains mname) then
        .clientError "Invalid or disallowed model"
      else
        match buildQuery store mname (requestFilterParams request)
              (requestAnns request) request.user_is_authenticated with
        | .error msg => .clientError msg
        | .ok rows =>
            paginateAndSerialize rows page per_page
              (!(requestAnns request).isEmpty)
              (get_format_function request.GET)

/-- The response of `views.load_objects`: `page` and `per_page` are parsed
with `int()` before anything else (lines 135-136), so a non-integer value is
an uncaught `ValueError` (500). -/
def load_objects_response (store : Store) (request : HttpRequest) : Response :=
  match parsePyInt (qdGetD request.POST "page" "1"),
        parsePyInt (qdGetD request.POST "per_page" "7") with
  | some page, some per_page => load_objects_checked store request page per_page
  | _, _ => .serverError

/-- The `/load-objects/` endpoint as a transition on the persisted state:
the handler only reads (filter/annotate/exclude/paginate/serialize perform no
writes), so the store passes through unchanged. -/
def load_objects (store : Store) (request : HttpRequest) : Response × Store :=
  (load_objects_response store request, store)

end Views

/-! ## The refactored pipeline (`forumapp/helpers.py`, imported by no view) -/

namespace Helpers

/-- `helpers.ALLOWED_MODELS` (line 8). -/
def ALLOWED_MODELS : List String := ["Reply", "Category", "Topic"]

/-- `helpers.ALLOWED_FILTER_PARAMS` (line 9). -/
def ALLOWED_FILTER_PARAMS : List String :=
  ["topic__slug", "category__slug", "author_id"]

/-- `helpers.ALLOWED_ANNOTATIONS` (line 10). -/
def ALLOWED_ANNOTATIONS : List String := ["author_name", "replies"]

/-- `helpers.validate_filter_params`: keep only allow-listed keys. -/
def validate_filter_params (params : List (String × String)) :
    List (String × String) :=
  params.filter (fun p => ALLOWED_FILTER_PARAMS.contains p.1)

/-- One iteration of the `helpers.validate_annotations` loop: an
`annotate_`-prefixed key is normalized by dropping the marker; a bare key is
accepted directly (`elif key in ALLOWED_ANNOTATIONS`); either way the
allow-listed normalized name is bound to `F(value)` and everything else is
dropped. -/
def validate_annotations_step (acc : List (String × AnnExpr))
    (kv : String × String) : List (String × AnnExpr) :=
  if strStartsWith kv.1 "annotate_" then
    (if ALLOWED_ANNOTATIONS.contains (kv.1.drop 9) then
      dictSet acc (kv.1.drop 9) (AnnExpr.F kv.2)
    else acc)
  else if ALLOWED_ANNOTATIONS.contains kv.1 then
    dictSet acc kv.1 (AnnExpr.F kv.2)
  else acc

/-- `helpers.validate_annotations`: the loop over the request items. -/
def validate_annotations (params : List (String × String)) :
    List (String × AnnExpr) :=
  params.foldl validate_annotations_step []

/-- The loop of `helpers.validate_related_counts`: append allow-listed
fields, raise `ValueError('Invalid related count field: ...')` on the first
field outside the allow-list. -/
def validate_related_counts_go : List String → Except String (List String)
  | [] => .ok []
  | f :: rest =>
      if ALLOWED_ANNOTATIONS.contains f then
        (validate_related_counts_go rest).map (fun l => f :: l)
      else .error ("Invalid related count field: " ++ f)

/-- `helpers.validate_related_counts`: split the comma-separated request and
validate every field. -/
def validate_related_counts (related_counts_request : String) :
    Except String (List String) :=
  validate_related_counts_go (strSplitOn related_counts_request ",")

/-- `helpers.validate_model`: `some message` is the 400 `JsonResponse`
returned for a missing, empty, or non-allow-listed model name. -/
def validate_model (model_name : Option String) : Option String :=
  match model_name with
  | none => some "Invalid or disallowed model"
  | some s =>
      if s.isEmpty || !(ALLOWED_MODELS.contains s) then
        some "Invalid or disallowed model"
      else none

/-- `helpers.validate_page_and_per_page`: parse `page` (default 1) and
`per_page` (default 7) with `int()`; a parse failure or a non-positive value
is reported as `(None, None)`. -/
def validate_page_and_per_page (post : QDict) : Option Int × Option Int :=
  match parsePyInt (qdGetD post "page" "1"),
        parsePyInt (qdGetD post "per_page" "7") with
  | some page, some per_page =>
      if page < 1 || per_page < 1 then (none, none)
      else (some page, some per_page)
  | _, _ => (none, none)

/-- `helpers.get_filter_params`: the POST items minus the reserved keys. -/
def get_filter_params (post : QDict) : List (String × String) :=
  (qdItems post).filter
    (fun kv => !(["page", "per_page", "model", "related_counts", "count"].contains kv.1))

/-- `helpers.fetch_objects`: inside `try`, filter, annotate, then — when a
related-counts request is present — validate it, build
`{f'{field}_count': Count(field)}`, merge it into the annotations and
annotate again; finally apply the anonymous-Category `MyTopics` exclusion.
Any exception (`FieldError`, `ValueError`, ...) is caught and becomes the
400 `Error filtering objects: ...` response, modelled as `.error`. On
success the source returns `(objects, annotations)`. -/
def fetch_objects (store : Store) (mname : String)
    (filter_params : List (String × String)) (anns : List (String × AnnExpr))
    (related_counts_request : String) (isAuth : Bool) :
    Except String (List (Row × List (String × Value)) × List (String × AnnExpr)) :=
  if filter_params.any (fun kv => !(filterParamOk mname kv)) then
    .error "Error filtering objects"
  else if anns.any (fun kv => !(annExprValid mname kv.2)) then
    .error "Error filtering objects"
  else
    let rows := filter_params.foldl
      (fun rs kv => rs.filter (fun r => filterMatch store r kv.1 kv.2))
      (allRows store mname)
    match (if related_counts_request == "" then .ok []
           else (validate_related_counts related_counts_request).map
             (fun fields => fields.map (fun f => (f ++ "_count", AnnExpr.Count f)))) with
    | .error e => .error ("Error filtering objects: " ++ e)
    | .ok related_counts_pairs =>
        if related_counts_pairs.any (fun kv => !(annExprValid mname kv.2)) then
          .error "Error filtering objects"
        else
          let annotations := dictMerge anns related_counts_pairs
          let rows := rows.map
            (fun r => (r, annotations.map (fun kv => (kv.1, evalAnnExpr store r kv.2))))
          let rows :=
            if mname == "Category" && !isAuth then
              rows.filter (fun rp => !(directAttr rp.1 "slug" == .vStr "MyTopics"))
            else rows
          .ok (rows, annotations)

/-- `helpers.serialize_objects`: the shared loop with annotated fields added
when annotations or a related-counts request are present. -/
def serialize_objects (pairs : List (Row × List (String × Value)))
    (annsNonempty : Bool) (related_counts_request : String)
    (fmt : Bool × List String) : Option (List Dict) :=
  serializePage pairs (annsNonempty || !(related_counts_request == ""))
    fmt.1 fmt.2

end Helpers

/-! ## Helper lemmas -/

theorem mem_dictSet {α : Type} (d : List (String × α)) (k : String) (v : α) :
    ∀ p ∈ dictSet d k v, p = (k, v) ∨ p ∈ d := by
  induction d with
  | nil => intro p hp; simp [dictSet] at hp; left; simpa using hp
  | cons hd tl ih =>
      obtain ⟨k', v'⟩ := hd
      intro p hp
      simp only [dictSet] at hp
      by_cases h : k' = k
      · rw [if_pos h] at hp
        rcases List.mem_cons.mp hp with h1 | h1
        · left; exact h1
        · right; exact List.mem_cons_of_mem _ h1
      · rw [if_neg h] at hp
        rcases List.mem_cons.mp hp with h1 | h1
        · right; exact h1 ▸ List.mem_cons_self _ _
        · rcases ih p h1 with h2 | h2
          · left; exact h2
          · right; exact List.mem_cons_of_mem _ h2

theorem dictGet_dictSet_ne {α : Type} (d : List (String × α)) (k k' : String)
    (v : α) (h : k' ≠ k) : dictGet (dictSet d k v) k' = dictGet d k' := by
  induction d with
  | nil =>
      simp only [dictSet, dictGet]
      rw [if_neg (fun hh => h hh.symm)]
  | cons hd tl ih =>
      obtain ⟨k0, v0⟩ := hd
      simp only [dictSet]
      by_cases h0 : k0 = k
      · rw [if_pos h0]
        simp only [dictGet]
        rw [if_neg (fun hh => h hh.symm),
            if_neg (fun hh => h (h0.symm.trans hh).symm)]
      · rw [if_neg h0]
        simp only [dictGet]
        by_cases h1 : k0 = k'
        · rw [if_pos h1, if_pos h1]
        · rw [if_neg h1, if_neg h1, ih]

theorem dictGet_dictSet_self {α : Type} (d : List (String × α)) (k : String)
    (v : α) : dictGet (dictSet d k v) k = some v := by
  induction d with
  | nil => simp [dictSet, dictGet]
  | cons hd tl ih =>
      obtain ⟨k0, v0⟩ := hd
      simp only [dictSet]
      by_cases h0 : k0 = k
      · rw [if_pos h0]; simp [dictGet]
      · rw [if_neg h0]; simp only [dictGet]; rw [if_neg h0]; exact ih

theorem dictGet_add_annotated_ne (d : Dict) (ps : List (String × Value))
    (k : String) (h : ∀ p ∈ ps, p.1 ≠ k) :
    dictGet (add_annotated_fields_to_obj_attrs d ps) k = dictGet d k := by
  induction ps generalizing d with
  | nil => rfl
  | cons hd tl ih =>
      simp only [add_annotated_fields_to_obj_attrs, List.foldl_cons]
      have step : dictGet (dictSet d hd.1 hd.2) k = dictGet d k :=
        dictGet_dictSet_ne d hd.1 k hd.2
          (fun hh => h hd (List.mem_cons_self _ _) (hh.symm))
      have := ih (dictSet d hd.1 hd.2)
        (fun p hp => h p (List.mem_cons_of_mem _ hp))
      simpa [add_annotated_fields_to_obj_attrs, step] using this

theorem pySlice_subset {α : Type} (l : List α) (b t : Int) :
    ∀ x ∈ pySlice l b t, x ∈ l := by
  intro x hx
  unfold pySlice at hx
  exact List.take_subset _ _ (List.drop_subset _ _ hx)

theorem page_slice_subset {α : Type} (l : List α) (pp n : Int) :
    ∀ x ∈ page_slice l pp n, x ∈ l := by
  intro x hx
  unfold page_slice at hx
  exact pySlice_subset _ _ _ x hx

theorem serializePage_mem (pairs : List (Row × List (String × Value)))
    (addAnns fmt : Bool) (fargs : List String) (ds : List Dict)
    (h : serializePage pairs addAnns fmt fargs = some ds) :
    ∀ d ∈ ds, ∃ p ∈ pairs, serializeOne p.1 p.2 addAnns fmt fargs = some d := by
  induction pairs generalizing ds with
  | nil =>
      simp only [serializePage] at h
      cases h
      intro d hd; cases hd
  | cons hd tl ih =>
      simp only [serializePage] at h
      cases h1 : serializeOne hd.1 hd.2 addAnns fmt fargs with
      | none => rw [h1] at h; cases h
      | some d0 =>
          rw [h1] at h
          cases h2 : serializePage tl addAnns fmt fargs with
          | none => rw [h2] at h; cases h
          | some ds0 =>
              rw [h2] at h
              cases h
              intro d hdm
              rcases List.mem_cons.mp hdm with h3 | h3
              · exact ⟨hd, List.mem_cons_self _ _, by rw [h3]; exact h1⟩
              · rcases ih ds0 h2 d h3 with ⟨p, hp, hps⟩
                exact ⟨p, List.mem_cons_of_mem _ hp, hps⟩

/-- When the datetime format function is requested, serializing a Category
raises `AttributeError` (`Category` has no `created_at`). -/
theorem serializeOne_cat_fmt (c : Category) (ps : List (String × Value))
    (addAnns : Bool) (fargs : List String) :
    serializeOne (Row.cat c) ps addAnns true fargs = none := by
  simp only [serializeOne, createdAtAttr]
  rcases fargs with _ | ⟨x, _ | ⟨y, t⟩⟩ <;> rfl

theorem views_validate_annotations_step_keys (acc : List (String × AnnExpr))
    (kv : String × String)
    (hacc : ∀ p ∈ acc, p.1 ∈ Views.ALLOWED_ANNOTATIONS) :
    ∀ p ∈ Views.validate_annotations_step acc kv,
      p.1 ∈ Views.ALLOWED_ANNOTATIONS := by
  intro p hp
  simp only [Views.validate_annotations_step] at hp
  by_cases h1 : strStartsWith kv.1 "annotate_"
  · rw [if_pos h1] at hp
    by_cases h2 : Views.ALLOWED_ANNOTATIONS.contains (kv.1.drop 9)
    · rw [if_pos h2] at hp
      rcases mem_dictSet acc _ _ p hp with h3 | h3
      · rw [h3]
        exact List.elem_iff.mp h2
      · exact hacc p h3
    · rw [if_neg h2] at hp; exact hacc p hp
  · rw [if_neg h1] at hp; exact hacc p hp

theorem views_validate_annotations_keys_aux (l : List (String × String)) :
    ∀ (acc : List (String × AnnExpr)),
      (∀ p ∈ acc, p.1 ∈ Views.ALLOWED_ANNOTATIONS) →
      ∀ p ∈ l.foldl Views.validate_annotations_step acc,
        p.1 ∈ Views.ALLOWED_ANNOTATIONS := by
  induction l with
  | nil => intro acc hacc p hp; exact hacc p hp
  | cons hd tl ih =>
      intro acc hacc p hp
      rw [List.foldl_cons] at hp
      exact ih (Views.validate_annotations_step acc hd)
        (views_validate_annotations_step_keys acc hd hacc) p hp

theorem views_validate_annotations_keys (params : List (String × String)) :
    ∀ p ∈ Views.validate_annotations params,
      p.1 ∈ Views.ALLOWED_ANNOTATIONS := by
  intro p hp
  simp only [Views.validate_annotations] at hp
  exact views_validate_annotations_keys_aux params []
    (fun q hq => absurd hq (List.not_mem_nil q)) p hp

theorem helpers_validate_annotations_step_keys (acc : List (String × AnnExpr))
    (kv : String × String)
    (hacc : ∀ p ∈ acc, p.1 ∈ Helpers.ALLOWED_ANNOTATIONS) :
    ∀ p ∈ Helpers.validate_annotations_step acc kv,
      p.1 ∈ Helpers.ALLOWED_ANNOTATIONS := by
  intro p hp
  simp only [Helpers.validate_annotations_step] at hp
  by_cases h1 : strStartsWith kv.1 "annotate_"
  · rw [if_pos h1] at hp
    by_cases h2 : Helpers.ALLOWED_ANNOTATIONS.contains (kv.1.drop 9)
    · rw [if_pos h2] at hp
      rcases mem_dictSet acc _ _ p hp with h3 | h3
      · rw [h3]; exact List.elem_iff.mp h2
      · exact hacc p h3
    · rw [if_neg h2] at hp; exact hacc p hp
  · rw [if_neg h1] at hp
    by_cases h2 : Helpers.ALLOWED_ANNOTATIONS.contains kv.1
    · rw [if_pos h2] at hp
      rcases mem_dictSet acc _ _ p hp with h3 | h3
      · rw [h3]; exact List.elem_iff.mp h2
      · exact hacc p h3
    · rw [if_neg h2] at hp; exact hacc p hp

theorem helpers_validate_annotations_keys_aux (l : List (String × String)) :
    ∀ (acc : List (String × AnnExpr)),
      (∀ p ∈ acc, p.1 ∈ Helpers.ALLOWED_ANNOTATIONS) →
      ∀ p ∈ l.foldl Helpers.validate_annotations_step acc,
        p.1 ∈ Helpers.ALLOWED_ANNOTATIONS := by
  induction l with
  | nil => intro acc hacc p hp; exact hacc p hp
  | cons hd tl ih =>
      intro acc hacc p hp
      rw [List.foldl_cons] at hp
      exact ih (Helpers.validate_annotations_step acc hd)
        (helpers_validate_annotations_step_keys acc hd hacc) p hp

theorem helpers_validate_annotations_keys (params : List (String × String)) :
    ∀ p ∈ Helpers.validate_annotations params,
      p.1 ∈ Helpers.ALLOWED_ANNOTATIONS := by
  intro p hp
  simp only [Helpers.validate_annotations] at hp
  exact helpers_validate_annotations_keys_aux params []
    (fun q hq => absurd hq (List.not_mem_nil q)) p hp

theorem foldl_filter_subset {α : Type} (fps : List (String × String))
    (step : α → String × String → Bool) :
    ∀ (l : List α) (x : α),
      x ∈ fps.foldl (fun rs kv => rs.filter (fun r => step r kv)) l → x ∈ l := by
  induction fps with
  | nil => intro l x hx; exact hx
  | cons hd tl ih =>
      intro l x hx
      exact List.mem_of_mem_filter (ih _ x hx)

/-- Structure of the rows a successful `views` query produces: each row comes
from the model's table, carries exactly the validated annotations' values,
and — for an anonymous Category request — survived the `MyTopics`
exclusion. -/
theorem views_buildQuery_ok_mem (store : Store) (mname : String)
    (fp : List (String × String)) (anns : List (String × AnnExpr))
    (isAuth : Bool) (rows : List (Row × List (String × Value)))
    (h : Views.buildQuery store mname fp anns isAuth = .ok rows) :
    ∀ p ∈ rows,
      p.1 ∈ allRows store mname ∧
      p.2 = anns.map (fun kv => (kv.1, evalAnnExpr store p.1 kv.2)) ∧
      ((mname == "Category" && !isAuth) = true →
        directAttr p.1 "slug" ≠ Value.vStr "MyTopics") := by
  intro p hp
  simp only [Views.buildQuery] at h
  by_cases h1 : fp.any (fun kv => !(filterParamOk mname kv))
  · rw [if_pos h1] at h; cases h
  · rw [if_neg h1] at h
    by_cases h2 : anns.any (fun kv => !(annExprValid mname kv.2))
    · rw [if_pos h2] at h; cases h
    · rw [if_neg h2] at h
      by_cases h3 : (mname == "Category" && !isAuth) = true
      · rw [if_pos h3] at h
        cases h
        have hpf := List.mem_filter.mp hp
        rcases List.mem_map.mp hpf.1 with ⟨r, hr, hrp⟩
        refine ⟨?_, ?_, ?_⟩
        · rw [← hrp]
          exact foldl_filter_subset fp (fun r kv => filterMatch store r kv.1 kv.2)
            (allRows store mname) r hr
        · rw [← hrp]
        · intro _
          have := hpf.2
          intro hcon
          rw [hcon] at this
          simp at this
      · rw [if_neg h3] at h
        cases h
        rcases List.mem_map.mp hp with ⟨r, hr, hrp⟩
        refine ⟨?_, ?_, fun hc => absurd hc h3⟩
        · rw [← hrp]
          exact foldl_filter_subset fp (fun r kv => filterMatch store r kv.1 kv.2)
            (allRows store mname) r hr
        · rw [← hrp]

/-- Inversion of a successful endpoint response: the model name was allowed,
the query succeeded, and the returned objects are the serialization of a
page slice of its rows. -/
theorem views_load_objects_ok_elim (store : Store) (req : HttpRequest)
    (ds : List Dict) (hn : Bool)
    (h : (Views.load_objects store req).1 = Response.ok ds hn) :
    ∃ mname page per_page rows np,
      qdGet req.POST "model" = some mname ∧
      mname ∈ Views.ALLOWED_MODELS ∧
      Views.buildQuery store mname (Views.requestFilterParams req)
        (Views.requestAnns req) req.user_is_authenticated = .ok rows ∧
      num_pages (Int.ofNat rows.length) per_page = some np ∧
      serializePage (page_slice rows per_page (get_page_number np page))
        (!(Views.requestAnns req).isEmpty)
        (get_format_function req.GET).1 (get_format_function req.GET).2
        = some ds := by
  simp only [Views.load_objects, Views.load_objects_response] at h
  cases hp : parsePyInt (qdGetD req.POST "page" "1") with
  | none => rw [hp] at h; cases h
  | some page =>
  rw [hp] at h
  cases hpp : parsePyInt (qdGetD req.POST "per_page" "7") with
  | none => rw [hpp] at h; cases h
  | some per_page =>
  rw [hpp] at h
  simp only [Views.load_objects_checked] at h
  cases hm : qdGet req.POST "model" with
  | none => rw [hm] at h; cases h
  | some mname =>
  rw [hm] at h
  dsimp only at h
  by_cases hOK : (mname.isEmpty || !(Views.ALLOWED_MODELS.contains mname)) = true
  · rw [if_pos hOK] at h; cases h
  · rw [if_neg hOK] at h
    cases hq : Views.buildQuery store mname (Views.requestFilterParams req)
        (Views.requestAnns req) req.user_is_authenticated with
    | error msg => rw [hq] at h; cases h
    | ok rows =>
    rw [hq] at h
    simp only [Views.paginateAndSerialize] at h
    cases hnp : num_pages (Int.ofNat rows.length) per_page with
    | none => rw [hnp] at h; cases h
    | some np =>
    rw [hnp] at h
    dsimp only at h
    cases hs : serializePage (page_slice rows per_page (get_page_number np page))
        (!(Views.requestAnns req).isEmpty)
        (get_format_function req.GET).1 (get_format_function req.GET).2 with
    | none => rw [hs] at h; cases h
    | some ds0 =>
    rw [hs] at h
    have hb : (mname.isEmpty || !(Views.ALLOWED_MODELS.contains mname)) = false :=
      Bool.eq_false_iff.mpr hOK
    have hmem : mname ∈ Views.ALLOWED_MODELS := by
      rcases Bool.or_eq_false_iff.mp hb with ⟨h1, h2⟩
      have hc : Views.ALLOWED_MODELS.contains mname = true := by simpa using h2
      exact List.elem_iff.mp hc
    cases h
    exact ⟨mname, page, per_page, rows, np, rfl, hmem, hq, hnp, hs⟩

theorem dictGet_safe_cat_slug (c : Category) :
    dictGet (safe_model_to_dict (Row.cat c) ["author_email", "password"])
      "slug" = some (Value.vStr c.slug) := rfl

theorem serializeOne_nofmt_eq (row : Row) (ps : List (String × Value))
    (addAnns : Bool) (fargs : List String) (d : Dict)
    (h : serializeOne row ps addAnns false fargs = some d) :
    d = (if addAnns then
          add_annotated_fields_to_obj_attrs
            (safe_model_to_dict row ["author_email", "password"]) ps
        else safe_model_to_dict row ["author_email", "password"]) := by
  simp only [serializeOne] at h
  cases h
  rfl

/-- Without the format step, a serialized Category keeps its own slug under
the `slug` key as long as no annotation key collides with it. -/
theorem serializeOne_cat_nofmt_slug (c : Category) (ps : List (String × Value))
    (addAnns : Bool) (fargs : List String) (d : Dict)
    (hk : ∀ p ∈ ps, p.1 ≠ "slug")
    (h : serializeOne (Row.cat c) ps addAnns false fargs = some d) :
    dictGet d "slug" = some (Value.vStr c.slug) := by
  rw [serializeOne_nofmt_eq _ _ _ _ _ h]
  cases addAnns with
  | false => simpa using dictGet_safe_cat_slug c
  | true =>
      rw [if_pos rfl]
      rw [dictGet_add_annotated_ne _ _ _ hk]
      exact dictGet_safe_cat_slug c

theorem dictGet_safe_deny (row : Row) :
    dictGet (safe_model_to_dict row ["author_email", "password"])
      "password" = none ∧
    dictGet (safe_model_to_dict row ["author_email", "password"])
      "author_email" = none := by
  cases row <;> exact ⟨rfl, rfl⟩

/-- Without the format step, the deny-listed keys never appear in a
serialized record as long as no annotation key is deny-listed. -/
theorem serializeOne_nofmt_no_deny (row : Row) (ps : List (String × Value))
    (addAnns : Bool) (fargs : List String) (d : Dict)
    (hk : ∀ p ∈ ps, p.1 ≠ "password" ∧ p.1 ≠ "author_email")
    (h : serializeOne row ps addAnns false fargs = some d) :
    dictGet d "password" = none ∧ dictGet d "author_email" = none := by
  rw [serializeOne_nofmt_eq _ _ _ _ _ h]
  cases addAnns with
  | false => simpa using dictGet_safe_deny row
  | true =>
      rw [if_pos rfl]
      constructor
      · rw [dictGet_add_annotated_ne _ _ _ (fun p hp => (hk p hp).1)]
        exact (dictGet_safe_deny row).1
      · rw [dictGet_add_annotated_ne _ _ _ (fun p hp => (hk p hp).2)]
        exact (dictGet_safe_deny row).2

/-! ## Concrete sample data for witnesses and counterexamples -/

def user1 : User := ⟨1, "alice", "alice@example.com", "hash1"⟩

def cat1 : Category := ⟨1, "General", "general talk", "general"⟩

def catMy : Category := ⟨2, "MyTopics", "", "MyTopics"⟩

def top1 : Topic := ⟨1, "Test", "test", "hello", 100, 100, 1, 1⟩

def rep1 : Reply := ⟨1, 1, 1, "hi", 100, 100, none, "1-1-100"⟩

def store1 : Store := ⟨[user1], [cat1, catMy], [top1], [rep1]⟩

/-- The serialization of `rep1` (no annotations, no format). -/
def rep1Dict : Dict :=
  [("topic", .vInt 1), ("author", .vInt 1), ("content", .vStr "hi"),
   ("created_at", .vInt 100), ("parent", .vNone), ("slug", .vStr "1-1-100")]

/-! ## Claims -/

/-- C8. Repeating a `/load-objects/` request with identical parameters
against the same stored data returns an identical response (hence identical
`objects` and `has_next`): the handler performs no writes, so the second
invocation runs on an unchanged store and the response is a function of
(store, request) alone. -/
theorem c8_load_objects_idempotent (store : Store) (req : HttpRequest) :
    (Views.load_objects store req).2 = store ∧
    (Views.load_objects ((Views.load_objects store req).2) req).1
      = (Views.load_objects store req).1 :=
  ⟨rfl, rfl⟩

/-- C9. For every Category, Topic, or Reply whose slug is non-empty, save
leaves the slug unchanged; the slug is computed (from name, title, or
topic-author-timestamp respectively) only when the stored slug is empty. -/
theorem c9_slug_immutable_once_set :
    (∀ c : Category, c.slug ≠ "" → (Category.save c).slug = c.slug) ∧
    (∀ c : Category, c.slug = "" → (Category.save c).slug = slugify c.name) ∧
    (∀ t : Topic, t.slug ≠ "" → (Topic.save t).slug = t.slug) ∧
    (∀ t : Topic, t.slug = "" → (Topic.save t).slug = slugify t.title) ∧
    (∀ (r : Reply) (now : Int), r.slug ≠ "" → (Reply.save r now).slug = r.slug) ∧
    (∀ (r : Reply) (now : Int), r.slug = "" →
      (Reply.save r now).slug =
        slugify (toString r.topic_id ++ "-" ++ toString r.author_id ++ "-"
                 ++ toString now)) := by
  refine ⟨?_, ?_, ?_, ?_, ?_, ?_⟩
  · intro c h; simp [Category.save, h]
  · intro c h; simp [Category.save, h]
  · intro t h; simp [Topic.save, h]
  · intro t h; simp [Topic.save, h]
  · intro r now h; simp [Reply.save, h]
  · intro r now h; simp [Reply.save, h]

/-- C9 witness: a Reply with a non-empty slug keeps it across a save at a
later time, and a fresh Category computes its slug from its name. -/
theorem c9_slug_immutable_once_set_witness :
    (Reply.save rep1 999).slug = "1-1-100" ∧
    (Category.save ⟨3, "My Stuff", "", ""⟩).slug = slugify "My Stuff" :=
  ⟨c9_slug_immutable_once_set.2.2.2.2.1 rep1 999 (by decide),
   c9_slug_immutable_once_set.2.1 ⟨3, "My Stuff", "", ""⟩ rfl⟩

theorem dictGet_dictDel_ne {α : Type} (d : List (String × α)) (f k : String)
    (h : k ≠ f) : dictGet (dictDel d f) k = dictGet d k := by
  induction d with
  | nil => rfl
  | cons hd tl ih =>
      obtain ⟨k0, v0⟩ := hd
      simp only [dictDel]
      by_cases h0 : k0 = f
      · rw [if_pos h0]
        simp only [dictGet]
        rw [if_neg (fun hh => h (hh.symm.trans h0))]
      · rw [if_neg h0]
        simp only [dictGet]
        by_cases h1 : k0 = k
        · rw [if_pos h1, if_pos h1]
        · rw [if_neg h1, if_neg h1, ih]

theorem dictDel_sublist {α : Type} (d : List (String × α)) (f : String) :
    (dictDel d f).Sublist d := by
  induction d with
  | nil => exact List.Sublist.refl _
  | cons hd tl ih =>
      obtain ⟨k0, v0⟩ := hd
      simp only [dictDel]
      by_cases h0 : k0 = f
      · rw [if_pos h0]; exact (List.Sublist.refl _).cons _
      · rw [if_neg h0]; exact ih.cons₂ _

theorem mem_dictDel {α : Type} (d : List (String × α)) (f : String)
    (hd : (d.map Prod.fst).Nodup) :
    ∀ p ∈ dictDel d f, p.1 ≠ f ∧ p ∈ d := by
  induction d with
  | nil => intro p hp; cases hp
  | cons hd0 tl ih =>
      obtain ⟨k0, v0⟩ := hd0
      intro p hp
      simp only [List.map_cons, List.nodup_cons] at hd
      simp only [dictDel] at hp
      by_cases h0 : k0 = f
      · rw [if_pos h0] at hp
        constructor
        · intro hc
          apply hd.1
          rw [h0, ← hc]
          exact List.mem_map_of_mem Prod.fst hp
        · exact List.mem_cons_of_mem _ hp
      · rw [if_neg h0] at hp
        rcases List.mem_cons.mp hp with h1 | h1
        · exact ⟨by rw [h1]; exact h0, h1 ▸ List.mem_cons_self _ _⟩
        · rcases ih hd.2 p h1 with ⟨h2, h3⟩
          exact ⟨h2, List.mem_cons_of_mem _ h3⟩

theorem foldl_dictDel_get {α : Type} (excl : List String) :
    ∀ (d : List (String × α)) (k : String), k ∉ excl →
      dictGet (excl.foldl (fun data field => dictDel data field) d) k
        = dictGet d k := by
  induction excl with
  | nil => intro d k _; rfl
  | cons f rest ih =>
      intro d k hk
      rw [List.foldl_cons, ih (dictDel d f) k (fun hh => hk (List.mem_cons_of_mem _ hh)),
          dictGet_dictDel_ne d f k (fun hh => hk (hh ▸ List.mem_cons_self _ _))]

theorem foldl_dictDel_mem {α : Type} (excl : List String) :
    ∀ (d : List (String × α)), (d.map Prod.fst).Nodup →
      ∀ p ∈ excl.foldl (fun data field => dictDel data field) d,
        p.1 ∉ excl ∧ p ∈ d := by
  induction excl with
  | nil => intro d _ p hp; exact ⟨fun h => absurd h (List.not_mem_nil _), hp⟩
  | cons f rest ih =>
      intro d hnd p hp
      rw [List.foldl_cons] at hp
      have hnd' : ((dictDel d f).map Prod.fst).Nodup :=
        hnd.sublist ((dictDel_sublist d f).map Prod.fst)
      rcases ih (dictDel d f) hnd' p hp with ⟨h1, h2⟩
      rcases mem_dictDel d f hnd p h2 with ⟨h3, h4⟩
      refine ⟨fun hc => ?_, h4⟩
      rcases List.mem_cons.mp hc with h5 | h5
      · exact h3 h5
      · exact h1 h5

theorem model_to_dict_keys_nodup (inst : Row) :
    ((model_to_dict inst).map Prod.fst).Nodup := by
  cases inst <;> simp [model_to_dict]

/-- C10. `safe_model_to_dict` is a pure key restriction of `model_to_dict`:
it agrees with the plain conversion on every field name outside the exclude
list, and every binding it contains has a non-excluded key and already
appeared in the plain conversion — only the listed fields are removed,
everything else passes through unchanged. -/
theorem c10_safe_model_to_dict_frame (inst : Row) (exclude_fields : List String) :
    (∀ k, k ∉ exclude_fields →
      dictGet (safe_model_to_dict inst exclude_fields) k
        = dictGet (model_to_dict inst) k) ∧
    (∀ p ∈ safe_model_to_dict inst exclude_fields,
      p.1 ∉ exclude_fields ∧ p ∈ model_to_dict inst) := by
  constructor
  · intro k hk
    exact foldl_dictDel_get exclude_fields (model_to_dict inst) k hk
  · intro p hp
    exact foldl_dictDel_mem exclude_fields (model_to_dict inst)
      (model_to_dict_keys_nodup inst) p hp

/-- C10 witness: excluding `created_at` from a concrete Reply leaves the
`slug` lookup identical to the plain conversion's. -/
theorem c10_safe_model_to_dict_frame_witness :
    dictGet (safe_model_to_dict (Row.rep rep1) ["created_at"]) "slug"
      = dictGet (model_to_dict (Row.rep rep1)) "slug" :=
  (c10_safe_model_to_dict_frame (Row.rep rep1) ["created_at"]).1 "slug" (by decide)

/-- C1 counterexample: `Topic` is in the claimed entity-kind allow-list
(which `helpers.py` defines), yet it is missing from the wired endpoint's
own allow-list, and a request for `model=Topic` is answered with the 400
`Invalid or disallowed model` error rather than with Topic rows. -/
theorem c1_allow_lists_counterexample :
    "Topic" ∈ Helpers.ALLOWED_MODELS ∧
    "Topic" ∉ Views.ALLOWED_MODELS ∧
    (Views.load_objects store1 ⟨[("model", "Topic")], [], false⟩).1
      = Response.clientError "Invalid or disallowed model" :=
  ⟨by decide, by decide, rfl⟩

/-- C1 amended. The helpers module's allow-lists are exactly the claimed
ones and its model validator returns the 400 error for every missing or
non-allow-listed model name; the wired endpoint's allow-lists are narrower
({Reply, Category}, {topic__slug}, {author_name, replies_count}), and — once
the integer parameters parse — it returns the 400 error for every request
whose model name is missing or outside its own entity-kind allow-list. -/
theorem c1_allow_lists_amended :
    (Helpers.ALLOWED_MODELS = ["Reply", "Category", "Topic"] ∧
     Helpers.ALLOWED_FILTER_PARAMS = ["topic__slug", "category__slug", "author_id"] ∧
     Helpers.ALLOWED_ANNOTATIONS = ["author_name", "replies"]) ∧
    (∀ m : Option String,
      (m = none ∨ ∃ s, m = some s ∧ s ∉ Helpers.ALLOWED_MODELS) →
      Helpers.validate_model m = some "Invalid or disallowed model") ∧
    (Views.ALLOWED_MODELS = ["Reply", "Category"] ∧
     Views.ALLOWED_FILTER_PARAMS = ["topic__slug"] ∧
     Views.ALLOWED_ANNOTATIONS = ["author_name", "replies_count"]) ∧
    (∀ (store : Store) (req : HttpRequest) (page per_page : Int),
      parsePyInt (qdGetD req.POST "page" "1") = some page →
      parsePyInt (qdGetD req.POST "per_page" "7") = some per_page →
      (qdGet req.POST "model" = none ∨
        ∃ s, qdGet req.POST "model" = some s ∧ s ∉ Views.ALLOWED_MODELS) →
      (Views.load_objects store req).1
        = Response.clientError "Invalid or disallowed model") := by
  refine ⟨⟨rfl, rfl, rfl⟩, ?_, ⟨rfl, rfl, rfl⟩, ?_⟩
  · intro m hm
    rcases hm with rfl | ⟨s, rfl, hs⟩
    · rfl
    · have hc : Helpers.ALLOWED_MODELS.contains s = false :=
        Bool.eq_false_iff.mpr (fun hcon => hs (List.elem_iff.mp hcon))
      simp only [Helpers.validate_model, hc, Bool.not_false, Bool.or_true,
        if_pos]
  · intro store req page per_page hp hpp hm
    simp only [Views.load_objects, Views.load_objects_response]
    rw [hp, hpp]
    dsimp only
    simp only [Views.load_objects_checked]
    rcases hm with hm | ⟨s, hm, hs⟩
    · rw [hm]
    · rw [hm]
      dsimp only
      have hc : Views.ALLOWED_MODELS.contains s = false :=
        Bool.eq_false_iff.mpr (fun hcon => hs (List.elem_iff.mp hcon))
      rw [hc]
      simp

/-- C1 amended witness: the helpers validator rejects the absent model name,
and the endpoint rejects the non-allow-listed name `User` on a concrete
request whose page parameters use the defaults. -/
theorem c1_allow_lists_amended_witness :
    Helpers.validate_model none = some "Invalid or disallowed model" ∧
    (Views.load_objects store1 ⟨[("model", "User")], [], false⟩).1
      = Response.clientError "Invalid or disallowed model" :=
  ⟨c1_allow_lists_amended.2.1 none (Or.inl rfl),
   c1_allow_lists_amended.2.2.2 store1 ⟨[("model", "User")], [], false⟩ 1 7
     (by decide) (by decide)
     (Or.inr ⟨"User", by decide, by decide⟩)⟩

theorem helpers_validate_one_bare (k v : String)
    (hsw : strStartsWith k "annotate_" = false)
    (hct : Helpers.ALLOWED_ANNOTATIONS.contains k = true) :
    Helpers.validate_annotations [(k, v)] = [(k, AnnExpr.F v)] := by
  simp only [Helpers.validate_annotations, List.foldl_cons, List.foldl_nil,
    Helpers.validate_annotations_step, hsw, hct, Bool.false_eq_true, if_false,
    if_pos]
  rfl

theorem helpers_validate_one_pref (k q v : String)
    (hsw : strStartsWith q "annotate_" = true) (hdrop : q.drop 9 = k)
    (hct : Helpers.ALLOWED_ANNOTATIONS.contains k = true) :
    Helpers.validate_annotations [(q, v)] = [(k, AnnExpr.F v)] := by
  simp only [Helpers.validate_annotations, List.foldl_cons, List.foldl_nil,
    Helpers.validate_annotations_step, hsw, hdrop, hct, if_pos]
  rfl

/-- C2 counterexample: `replies_count` is in the wired endpoint's annotation
allow-list, and its `annotate_`-prefixed form is accepted, but the bare form
is dropped by the endpoint's validator — the bare spelling is not accepted. -/
theorem c2_annotation_forms_counterexample :
    "replies_count" ∈ Views.ALLOWED_ANNOTATIONS ∧
    Views.validate_annotations [("annotate_replies_count", "author__username")]
      = [("replies_count", AnnExpr.F "author__username")] ∧
    Views.validate_annotations [("replies_count", "author__username")] = [] :=
  ⟨by decide, rfl, rfl⟩

/-- C2 amended. The helpers annotation validator accepts an allow-listed key
both bare and `annotate_`-prefixed, normalizing the two forms to the same
binding, and both validators drop every key whose normalized name is outside
their allow-list; the endpoint's own validator, however, considers only the
prefixed form and drops bare keys. -/
theorem c2_annotation_validator_amended :
    (∀ k v, k ∈ Helpers.ALLOWED_ANNOTATIONS →
      Helpers.validate_annotations [(k, v)] = [(k, AnnExpr.F v)] ∧
      Helpers.validate_annotations [("annotate_" ++ k, v)] = [(k, AnnExpr.F v)]) ∧
    (∀ params p, p ∈ Helpers.validate_annotations params →
      p.1 ∈ Helpers.ALLOWED_ANNOTATIONS) ∧
    (∀ params p, p ∈ Views.validate_annotations params →
      p.1 ∈ Views.ALLOWED_ANNOTATIONS) ∧
    (∀ k v, strStartsWith k "annotate_" = false →
      Views.validate_annotations [(k, v)] = []) := by
  refine ⟨?_, helpers_validate_annotations_keys, views_validate_annotations_keys, ?_⟩
  · intro k v hk
    rcases List.mem_cons.mp hk with rfl | hk
    · exact ⟨helpers_validate_one_bare _ v (by decide) (by decide),
             helpers_validate_one_pref _ _ v (by decide) (by decide) (by decide)⟩
    · rcases List.mem_cons.mp hk with rfl | hk
      · exact ⟨helpers_validate_one_bare _ v (by decide) (by decide),
               helpers_validate_one_pref _ _ v (by decide) (by decide) (by decide)⟩
      · cases hk
  · intro k v h
    simp only [Views.validate_annotations, List.foldl_cons, List.foldl_nil,
      Views.validate_annotations_step, h, Bool.false_eq_true, if_false,
      List.foldl_nil]

/-- C2 amended witness: `replies` is accepted by the helpers validator in
both spellings, and the endpoint validator drops the bare key `author_name`. -/
theorem c2_annotation_validator_amended_witness :
    Helpers.validate_annotations [("replies", "topic")]
      = [("replies", AnnExpr.F "topic")] ∧
    Helpers.validate_annotations [("annotate_replies", "topic")]
      = [("replies", AnnExpr.F "topic")] ∧
    Views.validate_annotations [("author_name", "author__username")] = [] :=
  ⟨(c2_annotation_validator_amended.1 "replies" "topic" (by decide)).1,
   (c2_annotation_validator_amended.1 "replies" "topic" (by decide)).2,
   c2_annotation_validator_amended.2.2.2 "author_name" "author__username"
     (by decide)⟩

/-- C3 counterexample: with one stored Reply, a `page=0` request is answered
with HTTP 200 and the full first page — the paginator clamps the
out-of-range page to a valid one instead of the claimed 400 error. -/
theorem c3_page_zero_counterexample :
    (Views.load_objects store1
      ⟨[("model", "Reply"), ("page", "0")], [], false⟩).1
      = Response.ok [rep1Dict] false :=
  rfl

/-- C3 amended. The helpers validator `validate_page_and_per_page` does
report `(None, None)` for zero, negative, or non-integer page/per_page, but
the wired endpoint never calls it: a non-integer `page` or `per_page` raises
an uncaught `ValueError` (HTTP 500, not 400), and out-of-range integer pages
such as `page=0` are clamped by the paginator to a valid page (HTTP 200). -/
theorem c3_page_validation_amended :
    (∀ post : QDict, parsePyInt (qdGetD post "page" "1") = none →
      Helpers.validate_page_and_per_page post = (none, none)) ∧
    (∀ (post : QDict) (p : Int), parsePyInt (qdGetD post "page" "1") = some p →
      parsePyInt (qdGetD post "per_page" "7") = none →
      Helpers.validate_page_and_per_page post = (none, none)) ∧
    (∀ (post : QDict) (p pp : Int),
      parsePyInt (qdGetD post "page" "1") = some p →
      parsePyInt (qdGetD post "per_page" "7") = some pp →
      (p < 1 ∨ pp < 1) →
      Helpers.validate_page_and_per_page post = (none, none)) ∧
    (∀ (store : Store) (req : HttpRequest),
      parsePyInt (qdGetD req.POST "page" "1") = none →
      (Views.load_objects store req).1 = Response.serverError) ∧
    (∀ (store : Store) (req : HttpRequest) (p : Int),
      parsePyInt (qdGetD req.POST "page" "1") = some p →
      parsePyInt (qdGetD req.POST "per_page" "7") = none →
      (Views.load_objects store req).1 = Response.serverError) := by
  refine ⟨?_, ?_, ?_, ?_, ?_⟩
  · intro post h
    simp only [Helpers.validate_page_and_per_page, h]
  · intro post p h1 h2
    simp only [Helpers.validate_page_and_per_page, h1, h2]
  · intro post p pp h1 h2 h3
    simp only [Helpers.validate_page_and_per_page, h1, h2]
    have : (p < 1 || pp < 1) = true := by
      rcases h3 with h3 | h3 <;> simp [h3]
    rw [if_pos this]
  · intro store req h
    simp only [Views.load_objects, Views.load_objects_response, h]
  · intro store req p h1 h2
    simp only [Views.load_objects, Views.load_objects_response, h1, h2]

/-- C3 amended witness: the helpers validator rejects `page=0` and a
non-numeric page, and the endpoint answers a non-numeric page with a server
error on concrete requests. -/
theorem c3_page_validation_amended_witness :
    Helpers.validate_page_and_per_page [("page", "0")] = (none, none) ∧
    Helpers.validate_page_and_per_page [("page", "x")] = (none, none) ∧
    (Views.load_objects store1
      ⟨[("model", "Reply"), ("page", "x")], [], false⟩).1
      = Response.serverError :=
  ⟨c3_page_validation_amended.2.2.1 [("page", "0")] 0 7 (by decide) (by decide)
     (Or.inl (by decide)),
   c3_page_validation_amended.1 [("page", "x")] (by decide),
   c3_page_validation_amended.2.2.2.1 store1
     ⟨[("model", "Reply"), ("page", "x")], [], false⟩ (by decide)⟩

theorem validate_related_counts_go_error (l : List String) (f : String)
    (hf : f ∈ l) (hbad : f ∉ Helpers.ALLOWED_ANNOTATIONS) :
    ∃ e, Helpers.validate_related_counts_go l = .error e := by
  induction l with
  | nil => cases hf
  | cons hd tl ih =>
      by_cases hc : Helpers.ALLOWED_ANNOTATIONS.contains hd
      · rcases List.mem_cons.mp hf with rfl | hf2
        · exact absurd (List.elem_iff.mp hc) hbad
        · rcases ih hf2 with ⟨e, he⟩
          refine ⟨e, ?_⟩
          simp only [Helpers.validate_related_counts_go, hc, if_pos, he]
          rfl
      · refine ⟨"Invalid related count field: " ++ hd, ?_⟩
        have hc' : Helpers.ALLOWED_ANNOTATIONS.contains hd = false :=
          Bool.eq_false_iff.mpr hc
        simp only [Helpers.validate_related_counts_go, hc',
          Bool.false_eq_true, if_false]

/-- C4 counterexample: a request carrying `related_counts=bogus` — a field
outside the annotation allow-list — is not rejected by the wired endpoint;
it returns HTTP 200 with the normal results, because the endpoint never
reads `related_counts` (the key is silently dropped by filter validation). -/
theorem c4_related_counts_counterexample :
    "bogus" ∉ Helpers.ALLOWED_ANNOTATIONS ∧
    (Views.load_objects store1
      ⟨[("model", "Reply"), ("related_counts", "bogus")], [], false⟩).1
      = Response.ok [rep1Dict] false :=
  ⟨by decide, rfl⟩

/-- C4 amended. In the helpers pipeline the claim holds: a related-counts
list containing any field outside the annotation allow-list makes
`validate_related_counts` raise and `fetch_objects` return the 400 error
with no results. The wired endpoint, however, ignores the `related_counts`
parameter entirely — it can never reach its filter set — and returns normal
results. -/
theorem c4_related_counts_amended :
    (∀ (rcr : String) (f : String), f ∈ strSplitOn rcr "," →
      f ∉ Helpers.ALLOWED_ANNOTATIONS →
      ∃ e, Helpers.validate_related_counts rcr = .error e) ∧
    (∀ (store : Store) (mname : String) (fp : List (String × String))
        (anns : List (String × AnnExpr)) (rcr : String) (isAuth : Bool),
      (rcr == "") = false →
      (∃ f ∈ strSplitOn rcr ",", f ∉ Helpers.ALLOWED_ANNOTATIONS) →
      ∃ e, Helpers.fetch_objects store mname fp anns rcr isAuth = .error e) ∧
    (∀ params : List (String × String),
      "related_counts" ∉ (Views.validate_filter_params params).map Prod.fst) := by
  refine ⟨?_, ?_, ?_⟩
  · intro rcr f hf hbad
    exact validate_related_counts_go_error _ f hf hbad
  · intro store mname fp anns rcr isAuth hne hbad
    simp only [Helpers.fetch_objects]
    by_cases h1 : fp.any (fun kv => !(filterParamOk mname kv))
    · rw [if_pos h1]; exact ⟨_, rfl⟩
    · rw [if_neg h1]
      by_cases h2 : anns.any (fun kv => !(annExprValid mname kv.2))
      · rw [if_pos h2]; exact ⟨_, rfl⟩
      · rw [if_neg h2]
        rcases hbad with ⟨f, hf, hbadf⟩
        rcases validate_related_counts_go_error _ f hf hbadf with ⟨e, he⟩
        have hv : Helpers.validate_related_counts rcr = .error e := he
        rw [hne, hv]
        exact ⟨_, rfl⟩
  · intro params hmem
    rcases List.mem_map.mp hmem with ⟨p, hp, hfst⟩
    have h1 := (List.mem_filter.mp hp).2
    have h2 : p.1 ∈ Views.ALLOWED_FILTER_PARAMS := List.elem_iff.mp h1
    rw [hfst] at h2
    exact absurd h2 (by decide)

/-- C4 amended witness: the helpers pipeline rejects `replies,bogus` as a
related-counts request both at the validator and at `fetch_objects`, and the
endpoint's filter validation drops the `related_counts` key. -/
theorem c4_related_counts_amended_witness :
    (∃ e, Helpers.validate_related_counts "replies,bogus" = .error e) ∧
    (∃ e, Helpers.fetch_objects store1 "Topic" [] [] "replies,bogus" true
      = .error e) ∧
    "related_counts" ∉
      (Views.validate_filter_params [("related_counts", "replies")]).map
        Prod.fst :=
  ⟨c4_related_counts_amended.1 "replies,bogus" "bogus" (by decide) (by decide),
   c4_related_counts_amended.2.1 store1 "Topic" [] [] "replies,bogus" true
     (by decide) ⟨"bogus", by decide, by decide⟩,
   c4_related_counts_amended.2.2 [("related_counts", "replies")]⟩

/-- C5. For every store and every unauthenticated request for entity kind
Category that the endpoint answers successfully, no returned object carries
slug "MyTopics": the virtual MyTopics category row is excluded regardless of
the filters supplied. -/
theorem c5_unauth_category_excludes_mytopics (store : Store)
    (req : HttpRequest) (ds : List Dict) (hn : Bool)
    (hauth : req.user_is_authenticated = false)
    (hmodel : qdGet req.POST "model" = some "Category")
    (hok : (Views.load_objects store req).1 = Response.ok ds hn) :
    ∀ d ∈ ds, dictGet d "slug" ≠ some (Value.vStr "MyTopics") := by
  intro d hd
  rcases views_load_objects_ok_elim store req ds hn hok with
    ⟨mname, page, per_page, rows, np, hm, hmem, hq, hnp, hs⟩
  have hmc : mname = "Category" := by
    rw [hmodel] at hm
    exact (Option.some.inj hm).symm
  subst hmc
  rcases serializePage_mem _ _ _ _ _ hs d hd with ⟨p, hp, hser⟩
  rcases views_buildQuery_ok_mem store "Category" _ _ _ rows hq p
    (page_slice_subset _ _ _ p hp) with ⟨hrow, hann, hexc⟩
  have hrow' : p.1 ∈ store.categories.map Row.cat := hrow
  rcases List.mem_map.mp hrow' with ⟨c, _, hcr⟩
  have hslug : directAttr p.1 "slug" ≠ Value.vStr "MyTopics" :=
    hexc (by simp [hauth])
  cases hfmt : (get_format_function req.GET).1 with
  | true =>
      rw [hfmt, ← hcr] at hser
      rw [serializeOne_cat_fmt c p.2 _ _] at hser
      cases hser
  | false =>
      rw [hfmt, ← hcr] at hser
      have hallow : ∀ x ∈ Views.ALLOWED_ANNOTATIONS, x ≠ "slug" := by decide
      have hkeys : ∀ q ∈ p.2, q.1 ≠ "slug" := by
        intro q hqm
        rw [hann] at hqm
        rcases List.mem_map.mp hqm with ⟨kv, hkv, hkveq⟩
        have hkv' : kv ∈ Views.validate_annotations (qdItems req.GET) := hkv
        have := views_validate_annotations_keys _ kv hkv'
        rw [← hkveq]
        exact hallow kv.1 this
      rw [serializeOne_cat_nofmt_slug c p.2 _ _ d hkeys hser]
      intro hcon
      apply hslug
      rw [← hcr]
      have hda : directAttr (Row.cat c) "slug" = Value.vStr c.slug := rfl
      rw [hda]
      exact congrArg Value.vStr (Value.vStr.inj (Option.some.inj hcon))

/-- The serialization of `cat1` (no annotations, no format). -/
def cat1Dict : Dict :=
  [("name", .vStr "General"), ("description", .vStr "general talk"),
   ("slug", .vStr "general")]

/-- C5 witness: an anonymous Category listing over `store1` (which stores a
MyTopics row) succeeds and its one returned object does not carry the
MyTopics slug. -/
theorem c5_unauth_category_excludes_mytopics_witness :
    dictGet cat1Dict "slug" ≠ some (Value.vStr "MyTopics") :=
  c5_unauth_category_excludes_mytopics store1
    ⟨[("model", "Category")], [], false⟩ [cat1Dict] false rfl rfl rfl
    cat1Dict (by decide)

/-- C6 counterexample: requesting the datetime format transform with
`format_args[]=password` makes the endpoint return objects whose mapping
contains the deny-listed key `password` (bound to the formatted creation
date), so the produced mapping does not exclude the deny-list for every
client request. -/
theorem c6_deny_list_counterexample :
    (Views.load_objects store1
      ⟨[("model", "Reply")],
       [("format_function", "datetime_format"), ("format_args[]", "password")],
       false⟩).1
      = Response.ok [rep1Dict ++ [("password", Value.vStr (date_format 100))]]
          false ∧
    dictGet (rep1Dict ++ [("password", Value.vStr (date_format 100))])
      "password" = some (Value.vStr (date_format 100)) :=
  ⟨rfl, rfl⟩

/-- C6 amended. When no format transform is requested, every record
serialized for a load-objects response excludes the deny-listed keys
`author_email` and `password`, regardless of the fields and annotations the
client requested; the optional format step writes the formatted creation
date — never a stored field value — under a single client-chosen key, which
is the only way a deny-listed key name can appear. -/
theorem c6_deny_list_amended :
    (∀ (store : Store) (req : HttpRequest) (ds : List Dict) (hn : Bool),
      (get_format_function req.GET).1 = false →
      (Views.load_objects store req).1 = Response.ok ds hn →
      ∀ d ∈ ds, dictGet d "password" = none ∧
                dictGet d "author_email" = none) ∧
    (∀ (row : Row) (ps : List (String × Value)) (addAnns : Bool)
        (f : String) (t : Int) (d : Dict),
      createdAtAttr row = some t →
      serializeOne row ps addAnns true [f] = some d →
      dictGet d f = some (Value.vStr (date_format t))) := by
  constructor
  · intro store req ds hn hfmt hok d hd
    rcases views_load_objects_ok_elim store req ds hn hok with
      ⟨mname, page, per_page, rows, np, hm, hmem, hq, hnp, hs⟩
    rcases serializePage_mem _ _ _ _ _ hs d hd with ⟨p, hp, hser⟩
    rcases views_buildQuery_ok_mem store mname _ _ _ rows hq p
      (page_slice_subset _ _ _ p hp) with ⟨hrow, hann, hexc⟩
    rw [hfmt] at hser
    have hallow : ∀ x ∈ Views.ALLOWED_ANNOTATIONS,
        x ≠ "password" ∧ x ≠ "author_email" := by decide
    have hkeys : ∀ q ∈ p.2, q.1 ≠ "password" ∧ q.1 ≠ "author_email" := by
      intro q hqm
      rw [hann] at hqm
      rcases List.mem_map.mp hqm with ⟨kv, hkv, hkveq⟩
      have hkv' : kv ∈ Views.validate_annotations (qdItems req.GET) := hkv
      have := views_validate_annotations_keys _ kv hkv'
      rw [← hkveq]
      exact hallow kv.1 this
    exact serializeOne_nofmt_no_deny p.1 p.2 _ _ d hkeys hser
  · intro row ps addAnns f t d hcr h
    simp only [serializeOne, hcr] at h
    cases h
    exact dictGet_dictSet_self _ f _

/-- C6 amended witness: a concrete formatless Reply load yields a record
with neither deny-listed key, and a concrete formatted serialization binds
the chosen key to the formatted creation date. -/
theorem c6_deny_list_amended_witness :
    (dictGet rep1Dict "password" = none ∧
     dictGet rep1Dict "author_email" = none) ∧
    dictGet (rep1Dict ++ [("updated", Value.vStr (date_format 100))])
      "updated" = some (Value.vStr (date_format 100)) :=
  ⟨c6_deny_list_amended.1 store1 ⟨[("model", "Reply")], [], false⟩
     [rep1Dict] false rfl rfl rep1Dict (by decide),
   c6_deny_list_amended.2 (Row.rep rep1) [] false "updated" 100
     (rep1Dict ++ [("updated", Value.vStr (date_format 100))]) rfl rfl⟩

theorem dictGet_foldl_dictSet_no_key {α : Type} (rest : List (String × α)) :
    ∀ (a : List (String × α)) (k : String), (∀ p ∈ rest, p.1 ≠ k) →
      dictGet (rest.foldl (fun acc kv => dictSet acc kv.1 kv.2) a) k
        = dictGet a k := by
  induction rest with
  | nil => intro a k _; rfl
  | cons q tl ih =>
      intro a k hk
      rw [List.foldl_cons,
        ih (dictSet a q.1 q.2) k (fun p hp => hk p (List.mem_cons_of_mem _ hp)),
        dictGet_dictSet_ne a q.1 k q.2
          (fun hh => hk q (List.mem_cons_self _ _) hh.symm)]

theorem dictGet_dictMerge {α : Type} (pairs : List (String × α)) :
    ∀ (a : List (String × α)) (k : String) (v : α),
      (∀ p ∈ pairs, p.1 = k → p.2 = v) → (∃ p ∈ pairs, p.1 = k) →
      dictGet (dictMerge a pairs) k = some v := by
  induction pairs with
  | nil => intro a k v _ hex; rcases hex with ⟨p, hp, _⟩; cases hp
  | cons q tl ih =>
      intro a k v hall hex
      simp only [dictMerge, List.foldl_cons]
      by_cases hrest : ∃ p ∈ tl, p.1 = k
      · exact ih (dictSet a q.1 q.2) k v
          (fun p hp => hall p (List.mem_cons_of_mem _ hp)) hrest
      · have hq : q.1 = k := by
          rcases hex with ⟨p, hp, hpk⟩
          rcases List.mem_cons.mp hp with rfl | hp2
          · exact hpk
          · exact absurd ⟨p, hp2, hpk⟩ hrest
        have hnk : ∀ p ∈ tl, p.1 ≠ k :=
          fun p hp hpk => hrest ⟨p, hp, hpk⟩
        rw [dictGet_foldl_dictSet_no_key tl (dictSet a q.1 q.2) k hnk, hq,
          dictGet_dictSet_self]
        rw [hall q (List.mem_cons_self _ _) hq]

theorem validate_related_counts_go_ok_sub (l : List String) :
    ∀ fields, Helpers.validate_related_counts_go l = .ok fields →
      ∀ f ∈ fields, f ∈ Helpers.ALLOWED_ANNOTATIONS := by
  induction l with
  | nil =>
      intro fields h f hf
      simp only [Helpers.validate_related_counts_go] at h
      cases h
      cases hf
  | cons hd tl ih =>
      intro fields h f hf
      by_cases hc : Helpers.ALLOWED_ANNOTATIONS.contains hd
      · simp only [Helpers.validate_related_counts_go, hc, if_pos] at h
        cases hgo : Helpers.validate_related_counts_go tl with
        | error e => rw [hgo] at h; cases h
        | ok fl =>
            rw [hgo] at h
            simp only [Except.map] at h
            cases h
            rcases List.mem_cons.mp hf with rfl | hf2
            · exact List.elem_iff.mp hc
            · exact ih fl hgo f hf2
      · have hc' : Helpers.ALLOWED_ANNOTATIONS.contains hd = false :=
          Bool.eq_false_iff.mpr hc
        simp only [Helpers.validate_related_counts_go, hc',
          Bool.false_eq_true, if_false] at h
        cases h

/-- C7. Whenever `fetch_objects` succeeds on a related-counts request, the
annotation mapping it returns binds, for every field of the validated
related-counts list, the name `<field>_count` to `Count(field)`. -/
theorem c7_related_counts_annotation_names (store : Store) (mname : String)
    (fp : List (String × String)) (anns : List (String × AnnExpr))
    (rcr : String) (isAuth : Bool) (fields : List String)
    (rows : List (Row × List (String × Value)))
    (annsOut : List (String × AnnExpr))
    (hv : Helpers.validate_related_counts rcr = .ok fields)
    (hf : Helpers.fetch_objects store mname fp anns rcr isAuth
      = .ok (rows, annsOut)) :
    ∀ f ∈ fields, dictGet annsOut (f ++ "_count")
      = some (AnnExpr.Count f) := by
  intro f hfm
  have hfield : ∀ g ∈ fields, g ∈ Helpers.ALLOWED_ANNOTATIONS :=
    validate_related_counts_go_ok_sub _ fields hv
  have hinj : ∀ g ∈ Helpers.ALLOWED_ANNOTATIONS,
      ∀ g' ∈ Helpers.ALLOWED_ANNOTATIONS,
      g ++ "_count" = g' ++ "_count" → g = g' := by decide
  -- invert fetch_objects
  simp only [Helpers.fetch_objects] at hf
  by_cases h1 : fp.any (fun kv => !(filterParamOk mname kv))
  · rw [if_pos h1] at hf; cases hf
  · rw [if_neg h1] at hf
    by_cases h2 : anns.any (fun kv => !(annExprValid mname kv.2))
    · rw [if_pos h2] at hf; cases hf
    · rw [if_neg h2] at hf
      by_cases hrc : (rcr == "") = true
      · have hrc' : rcr = "" := by simpa using hrc
        rw [hrc'] at hv
        have hveq : Helpers.validate_related_counts ""
            = .error ("Invalid related count field: ") := rfl
        rw [hveq] at hv
        cases hv
      · have hrc' : (rcr == "") = false := Bool.eq_false_iff.mpr hrc
        rw [hrc', hv] at hf
        simp only [Bool.false_eq_true, if_false, Except.map] at hf
        by_cases h3 : (fields.map
            (fun f => (f ++ "_count", AnnExpr.Count f))).any
            (fun kv => !(annExprValid mname kv.2))
        · rw [if_pos h3] at hf; cases hf
        · rw [if_neg h3] at hf
          have hout : annsOut = dictMerge anns
              (fields.map (fun f => (f ++ "_count", AnnExpr.Count f))) := by
            cases hf; rfl
          rw [hout]
          apply dictGet_dictMerge
          · intro p hp hpk
            rcases List.mem_map.mp hp with ⟨g, hg, hgp⟩
            have hkey : g ++ "_count" = f ++ "_count" := by
              rw [← hpk, ← hgp]
            have hgf : g = f :=
              hinj g (hfield g hg) f (hfield f hfm) hkey
            rw [← hgp, hgf]
          · exact ⟨(f ++ "_count", AnnExpr.Count f),
              List.mem_map_of_mem _ hfm, rfl⟩

/-- C7 witness: on a concrete store, loading Topics with
`related_counts=replies` yields the annotation mapping binding
`replies_count` to `Count(replies)`. -/
theorem c7_related_counts_annotation_names_witness :
    dictGet [("replies_count", AnnExpr.Count "replies")] "replies_count"
      = some (AnnExpr.Count "replies") :=
  c7_related_counts_annotation_names store1 "Topic" [] [] "replies" true
    ["replies"] [(Row.top top1, [("replies_count", Value.vInt 1)])]
    [("replies_count", AnnExpr.Count "replies")] rfl rfl
    "replies" (by decide)
